import Mathlib

/-!
Shallow embedding of the Game-of-Life simulation controller
(`backend/gol/board.go`, `backend/gol/game.go`, `backend/client.go`).

Conventions:
* Go `[][]bool` boards become `List (List Bool)`; `true` = alive.
* Go `int` becomes `Int`; list indices produced by loops are `Nat`.
* Go panics (out-of-range indexing, `rand.Intn` with a non-positive
  argument) are modelled with `Except String`, reads that Go would have
  guarded by a bounds check are totalized with `getD` defaults.
* `math/rand` draws are modelled by an explicit stream of pre-drawn
  naturals: `rand.Intn n` consumes the head of the stream modulo `n`.
* Go `%` on `Int` is truncated division remainder, i.e. `Int.tmod`.
-/

namespace TemporalGol

/-- A board: `true` means alive, `false` means dead (`board.go`). -/
abbrev Board := List (List Bool)

/-- Constants from `game.go`. -/
def DefaultMaxSteps : Int := 5000

def DefaultBoardLength : Nat := 512

def DefaultBoardWidth : Nat := 512

def DefaultStoreInterval : Int := 50

/-- 250ms in nanoseconds (`time.Duration` is an int64 nanosecond count). -/
def DefaultTickTime : Int := 250000000

/-- Reading a cell the way an observer does: off-grid positions count as dead. -/
def specCell (board : Board) (i j : Int) : Bool :=
  if 0 ≤ i ∧ i < (board.length : Int) then
    let row := board.getD i.toNat []
    if 0 ≤ j ∧ j < (row.length : Int) then row.getD j.toNat false else false
  else false

/-- The board is rectangular: every row has the length of the first row. -/
def Rect (board : Board) : Prop :=
  ∀ row ∈ board, row.length = (board.headD []).length

instance (board : Board) : Decidable (Rect board) := by
  unfold Rect; infer_instance

/-- The 8 Moore-neighborhood offsets, in the order the nested
`for x`/`for y` loops of `countAliveNeighbors` visit them. -/
def neighborOffsets : List (Int × Int) :=
  [(-1, -1), (-1, 0), (-1, 1), (0, -1), (0, 1), (1, -1), (1, 0), (1, 1)]

/-- `countAliveNeighbors` from `board.go`: bounds are checked against
`len(board)` and `len(board[0])`, off-grid neighbors are skipped. -/
def countAliveNeighbors (board : Board) (i j : Int) : Nat :=
  neighborOffsets.foldl
    (fun count d =>
      if i + d.1 < 0 ∨ (board.length : Int) ≤ i + d.1 ∨ j + d.2 < 0 ∨
          ((board.headD []).length : Int) ≤ j + d.2 then
        count
      else if (board.getD (i + d.1).toNat []).getD (j + d.2).toNat false then count + 1
      else count)
    0

/-- `NextGeneration` from `board.go` / `game.go`: survive on 2 or 3 live
neighbors, birth on exactly 3. -/
def NextGeneration (board : Board) : Board :=
  (List.range board.length).map (fun (i : Nat) =>
    (List.range (board.headD []).length).map (fun (j : Nat) =>
      let aliveNeighbors := countAliveNeighbors board (i : Int) (j : Int)
      if (board.getD i []).getD j false then
        aliveNeighbors == 2 || aliveNeighbors == 3
      else
        aliveNeighbors == 3))

/-- Inner loop of `DiffFlipped`: walk one row of `curr` at row index `i`,
column index `j`, comparing against the matching row of `prev`. -/
def diffRow (i : Nat) : Nat → List Bool → List Bool → List (Nat × Nat)
  | _, _, [] => []
  | j, prevRow, c :: cs =>
      (if prevRow.headD false != c then [(i, j)] else []) ++ diffRow i (j + 1) prevRow.tail cs

/-- Outer loop of `DiffFlipped`: walk the rows of `curr`. -/
def diffRows : Nat → Board → Board → List (Nat × Nat)
  | _, _, [] => []
  | i, prev, row :: rest => diffRow i 0 (prev.headD []) row ++ diffRows (i + 1) prev.tail rest

/-- `DiffFlipped` from `board.go` / `game.go`: every coordinate where the
two boards differ, in row-major order. -/
def DiffFlipped (prev curr : Board) : List (Nat × Nat) :=
  diffRows 0 prev curr

/-- The `StateChange` record (`board.go` / `game.go`): the delta published
to observers. `TickTime` is nanoseconds. -/
structure StateChange where
  Id : String
  Paused : Bool
  Step : Int
  TickTime : Int
  Flipped : List (Nat × Nat)
deriving Repr, DecidableEq

/-- The `Gol` run-state record of `board.go` (first corpus variant),
consumed by `StateChangeFromNothing`. -/
structure Gol where
  Id : String
  Paused : Bool
  Board : Board
  steps : Int
  MaxStep : Int
  TickTime : Int
deriving Repr, DecidableEq

/-- `StateChangeFromNothing` from `board.go`: diff the run's board against
a freshly allocated all-dead default-sized board. -/
def StateChangeFromNothing (g : Gol) : StateChange :=
  let board : Board := List.replicate DefaultBoardLength (List.replicate DefaultBoardWidth false)
  { Id := g.Id
    Paused := g.Paused
    Step := g.steps
    TickTime := g.TickTime
    Flipped := DiffFlipped board g.Board }

/-- CheckpointStore state: the `Boards` map of `board.go`, modelled as an
association list where the most recent binding for a key shadows older ones
(Go map assignment semantics). -/
abbrev BoardStore := List (String × Board)

/-- `Am.StoreBoard` from `board.go`: store the board under a freshly drawn
uuid (the uuid is an input of the model) and return the reference. -/
def Am.StoreBoard (boards : BoardStore) (uuid : String) (board : Board) :
    String × BoardStore :=
  (uuid, (uuid, board) :: boards)

/-- `Am.GetBoard` from `board.go`: look the reference up, `board not found`
on a missing key. -/
def Am.GetBoard (boards : BoardStore) (ref : String) : Except String Board :=
  match boards.find? (fun kv => kv.1 == ref) with
  | some kv => .ok kv.2
  | none => .error "board not found"

/-- Model of `rand.Intn n`: consume one pre-drawn natural from the stream
and reduce it modulo `n`; `rand.Intn` panics when `n <= 0`. -/
def randIntn (n : Int) (rands : List Nat) : Except String (Nat × List Nat) :=
  if n ≤ 0 then .error "invalid argument to Intn"
  else .ok (rands.headD 0 % n.toNat, rands.tail)

/-- Swap two positions of a list (identity on out-of-range indices). -/
def swapL {α : Type} (l : List α) (i j : Nat) : List α :=
  match l.get? i, l.get? j with
  | some a, some b => (l.set i b).set j a
  | _, _ => l

/-- Fisher-Yates descent of `rand.Shuffle`: at index `i+1` draw
`j := Intn(i+2)` and swap positions `i+1` and `j`, then continue at `i`. -/
def shuffleAux {α : Type} : List α → List Nat → Nat → List α × List Nat
  | l, rands, 0 => (l, rands)
  | l, rands, i + 1 =>
      let j := rands.headD 0 % (i + 2)
      shuffleAux (swapL l (i + 1) j) rands.tail i

/-- Model of `rand.Shuffle` on a list. -/
def shuffle {α : Type} (l : List α) (rands : List Nat) : List α × List Nat :=
  shuffleAux l rands (l.length - 1)

/-- Set one cell of a board (identity on out-of-range indices, matching
`List.set`; callers guard with the same bounds checks Go performs). -/
def setCell (board : Board) (r c : Nat) (v : Bool) : Board :=
  board.set r ((board.getD r []).set c v)

/-- A closed integer interval as a list, `[lo..hi]`, empty when `hi < lo`
(the Go `for i := lo; i <= hi; i++` iteration space). -/
def intRange (lo hi : Int) : List Int :=
  (List.range (hi - lo + 1).toNat).map (fun (k : Nat) => lo + (k : Int))

/-- `SplatterInput` from `board.go` (the variant paired with the signal
handler of `game.go`). -/
structure SplatterInput where
  Board : Board
  Row : Int
  Col : Int
  Radius : Int
deriving Repr, DecidableEq

/-- The candidate collection loop of `Am.Splatter` (`board.go`): all
in-bounds cells within Euclidean distance `radius` of the origin, in the
nested-loop visit order. -/
def splatterCandidates (board : Board) (row col radius : Int) : List (Int × Int) :=
  (intRange (-radius) radius).flatMap (fun i =>
    (intRange (-radius) radius).filterMap (fun j =>
      if i * i + j * j ≤ radius * radius then
        if 0 ≤ row + i ∧ row + i < (board.length : Int) ∧ 0 ≤ col + j ∧
            col + j < ((board.headD []).length : Int) then some (row + i, col + j)
        else none
      else none))

/-- `Am.Splatter` from `board.go`: collect the in-bounds cells within
Euclidean distance `Radius` of the origin, shuffle them, draw
`numToFill := rand.Intn(len(candidates)/2) + 1` and set that many alive,
then force the origin alive. Panics (`error`) on an empty board (the read
of `board[0]`) and when `rand.Intn` receives a non-positive argument. -/
def Am.Splatter (input : SplatterInput) (rands : List Nat) :
    Except String (Board × List Nat) :=
  if input.Board.length = 0 then .error "index out of range"
  else
    let candidates := splatterCandidates input.Board input.Row input.Col input.Radius
    let shuffled := shuffle candidates rands
    match randIntn ((shuffled.1.length : Int) / 2) shuffled.2 with
    | .error e => .error e
    | .ok (k, rands2) =>
        let numToFill := k + 1
        let board1 := (shuffled.1.take numToFill).foldl
          (fun b p => setCell b p.1.toNat p.2.toNat true) input.Board
        if 0 ≤ input.Row ∧ input.Row < (board1.length : Int) ∧
            0 ≤ input.Col ∧ input.Col < ((board1.getD input.Row.toNat []).length : Int) then
          .ok (setCell board1 input.Row.toNat input.Col.toNat true, rands2)
        else .error "index out of range"

namespace V3

/-- `SplatterInput` from the later corpus variant (`client.go` part): an
explicit `NumCellsToSet` count. -/
structure SplatterInput where
  Board : TemporalGol.Board
  Row : Int
  Col : Int
  Radius : Int
  NumCellsToSet : Int
deriving Repr, DecidableEq

/-- The `for range input.NumCellsToSet` loop of that `Am.Splatter`: each
iteration draws offsets `dr, dc ∈ [-Radius, Radius]` and sets the offset
cell alive when in bounds. -/
def splatterLoop (row col radius : Int) : Board → Nat → List Nat →
    Except String (Board × List Nat)
  | board, 0, rands => .ok (board, rands)
  | board, n + 1, rands =>
      match randIntn (radius * 2 + 1) rands with
      | .error e => .error e
      | .ok (v1, rands1) =>
          match randIntn (radius * 2 + 1) rands1 with
          | .error e => .error e
          | .ok (v2, rands2) =>
              let r := row + ((v1 : Int) - radius)
              let c := col + ((v2 : Int) - radius)
              let board' :=
                if 0 ≤ r ∧ r < (board.length : Int) ∧
                    0 ≤ c ∧ c < ((board.headD []).length : Int) then
                  setCell board r.toNat c.toNat true
                else board
              splatterLoop row col radius board' n rands2

/-- `Am.Splatter` from the `client.go` corpus variant: `NumCellsToSet`
random square offsets, then force the origin alive (an unguarded write
which panics when the origin is out of bounds). -/
def Am.Splatter (input : SplatterInput) (rands : List Nat) :
    Except String (Board × List Nat) :=
  match splatterLoop input.Row input.Col input.Radius input.Board
      input.NumCellsToSet.toNat rands with
  | .error e => .error e
  | .ok (b, rands') =>
      if 0 ≤ input.Row ∧ input.Row < (b.length : Int) ∧
          0 ≤ input.Col ∧ input.Col < ((b.getD input.Row.toNat []).length : Int) then
        .ok (setCell b input.Row.toNat input.Col.toNat true, rands')
      else .error "index out of range"

end V3

/-- The `GolState` record of `game.go` (the signal-handled variant): the
per-instance state next to the package-level globals `Steps` and
`GolBoard`. -/
structure GolState where
  Id : String
  Paused : Bool
  TickTime : Int
deriving Repr, DecidableEq

/-- The workflow input record of `game.go`. -/
structure GameOfLifeInput where
  MaxSteps : Int
  TickTime : Int
  UseExistingBoard : Bool
  Paused : Bool
deriving Repr, DecidableEq

/-- The `splatter` signal payload. -/
structure SplatterSignal where
  X : Int
  Y : Int
  Size : Int
deriving Repr, DecidableEq

/-- The controller state at the top of one `GameOfLife` loop iteration:
the globals `Steps` and `GolBoard`, the local `state`, and the workflow
`input`. -/
structure LoopState where
  Steps : Int
  GolBoard : Board
  state : GolState
  input : GameOfLifeInput
deriving Repr, DecidableEq

/-- The three event sources the selector waits on. -/
inductive Event where
  | timer
  | toggle
  | splatter (signal : SplatterSignal)
deriving Repr, DecidableEq

/-- `NextGenerationAndSendState` from `game.go`: advance `GolBoard` one
generation and publish the diff; the published `Step` is the current value
of the global `Steps` (the function does not change it). -/
def NextGenerationAndSendState (steps : Int) (golBoard : Board) (golState : GolState) :
    Board × StateChange :=
  let nextGeneration := NextGeneration golBoard
  let flipped := DiffFlipped golBoard nextGeneration
  (nextGeneration,
    { Id := golState.Id
      Paused := golState.Paused
      Step := steps
      TickTime := golState.TickTime
      Flipped := flipped })

/-- The outcome of one loop iteration: the updated globals and state, the
published delta, and the continue-as-new input when the checkpoint check
fired. -/
structure StepResult where
  Steps : Int
  GolBoard : Board
  state : GolState
  sent : StateChange
  continueAsNew : Option GameOfLifeInput
deriving Repr, DecidableEq

/-- One iteration of the `GameOfLife` loop of `game.go`, entered with
`Steps < input.MaxSteps`, processing the single event `ev` the selector
returns: when not paused the iteration first increments `Steps` (arming the
tick timer); a toggle flips `state.Paused`; a splatter runs the `Splatter`
activity on a `SplatterInput` whose `Board` field is left at its zero value
(`nil`) and discards the returned board (an activity error is
`log.Fatalf`, modelled as `error`); then `NextGenerationAndSendState` runs
unconditionally, and `Steps % DefaultStoreInterval == 0` triggers
continue-as-new with `{MaxSteps: input.MaxSteps, TickTime: state.TickTime,
UseExistingBoard: true, Paused: input.Paused}`. -/
def runIteration (ls : LoopState) (ev : Event) (rands : List Nat) :
    Except String StepResult :=
  let steps1 := if ls.state.Paused then ls.Steps else ls.Steps + 1
  let handled : Except String GolState :=
    match ev with
    | .timer => .ok ls.state
    | .toggle => .ok { ls.state with Paused := !ls.state.Paused }
    | .splatter signal =>
        match Am.Splatter
            { Board := [], Row := signal.X, Col := signal.Y, Radius := signal.Size } rands with
        | .error e => .error e
        | .ok _ => .ok ls.state
  match handled with
  | .error e => .error e
  | .ok st =>
      let sent := NextGenerationAndSendState steps1 ls.GolBoard st
      let continueAsNew : Option GameOfLifeInput :=
        if steps1.tmod DefaultStoreInterval = 0 then
          some { MaxSteps := ls.input.MaxSteps
                 TickTime := st.TickTime
                 UseExistingBoard := true
                 Paused := ls.input.Paused }
        else none
      .ok { Steps := steps1
            GolBoard := sent.1
            state := st
            sent := sent.2
            continueAsNew := continueAsNew }

/- ------------------------------------------------------------------ -/
/- Specification-side definitions the theorems compare against.        -/
/- ------------------------------------------------------------------ -/

/-- Moore-neighborhood live count as the spec states it: over the 8
offsets, with off-grid neighbors dead and no wraparound. -/
def mooreCount (board : Board) (i j : Int) : Nat :=
  neighborOffsets.countP (fun d => specCell board (i + d.1) (j + d.2))

/-- Live coordinates of one row, column indices from `j`, row index `i`. -/
def rowLiveFrom (i : Nat) : Nat → List Bool → List (Nat × Nat)
  | _, [] => []
  | j, c :: cs => (if c then [(i, j)] else []) ++ rowLiveFrom i (j + 1) cs

/-- Live coordinates of a board, row indices from `i`, row-major order. -/
def liveCellsFrom : Nat → Board → List (Nat × Nat)
  | _, [] => []
  | i, row :: rest => rowLiveFrom i 0 row ++ liveCellsFrom (i + 1) rest

/-- The coordinates of the live cells of a board, in row-major order. -/
def liveCellsRowMajor (board : Board) : List (Nat × Nat) :=
  liveCellsFrom 0 board

/-- How a subscriber consumes a delta: toggle each flipped coordinate
(the canvas client flips `board[index]` for every listed pair). -/
def applyFlips (board : Board) (flips : List (Nat × Nat)) : Board :=
  flips.foldl
    (fun b p => b.set p.1 ((b.getD p.1 []).set p.2 (!(b.getD p.1 []).getD p.2 false)))
    board

/-- Toggling flips inside a single row (column index in the second
component). -/
def applyRowFlips (row : List Bool) (flips : List (Nat × Nat)) : List Bool :=
  flips.foldl (fun r p => r.set p.2 (!(r.getD p.2 false))) row

/-- A run state holding the all-dead default-sized board. -/
def emptyDefaultGol : Gol :=
  { Id := "run-1"
    Paused := false
    Board := List.replicate DefaultBoardLength (List.replicate DefaultBoardWidth false)
    steps := 0
    MaxStep := 5000
    TickTime := 250000000 }

/-- Every entry of the list is `false`. -/
def AllFalse (l : List Bool) : Prop := ∀ b ∈ l, b = false

/- ------------------------------------------------------------------ -/
/- Concrete scenarios used by counterexamples and witnesses.           -/
/- ------------------------------------------------------------------ -/

/-- A 3x3 board holding a horizontal blinker. -/
def blinker : Board := [[false, false, false], [true, true, true], [false, false, false]]

/-- A 3x3 all-dead board. -/
def deadBoard3 : Board :=
  [[false, false, false], [false, false, false], [false, false, false]]

/-- A 3x3 board whose top-left cell is alive. -/
def cornerBoard3 : Board :=
  [[true, false, false], [false, false, false], [false, false, false]]

/-- A controller instance started paused (`input.Paused = true`), global
`Steps = 0`, holding the blinker board. -/
def pausedStart : LoopState :=
  { Steps := 0
    GolBoard := blinker
    state := { Id := "run-1", Paused := true, TickTime := 250000000 }
    input := { MaxSteps := 5000, TickTime := 250000000, UseExistingBoard := false, Paused := true } }

/-- A running controller holding the blinker board at `Steps = 3`. -/
def runningBlinker : LoopState :=
  { Steps := 3
    GolBoard := blinker
    state := { Id := "run-1", Paused := false, TickTime := 250000000 }
    input := { MaxSteps := 5000, TickTime := 250000000, UseExistingBoard := false, Paused := false } }

/-- A size-1 splatter at the center of the all-dead 3x3 board. -/
def centerSplatterInput : V3.SplatterInput :=
  { Board := deadBoard3, Row := 1, Col := 1, Radius := 1, NumCellsToSet := 1 }

/-- A size-1 splatter at the center of the live-corner 3x3 board. -/
def cornerSplatterInput : V3.SplatterInput :=
  { Board := cornerBoard3, Row := 1, Col := 1, Radius := 1, NumCellsToSet := 1 }

/-- A paused controller whose global `Steps` sits at the checkpoint
interval (a successor instance starts exactly like this). -/
def pausedAt50 : LoopState :=
  { Steps := 50
    GolBoard := blinker
    state := { Id := "run-2", Paused := true, TickTime := 250000000 }
    input := { MaxSteps := 5000, TickTime := 250000000, UseExistingBoard := true, Paused := false } }

end TemporalGol

namespace TemporalGol

/-- C9: storing a board and retrieving the returned reference yields a board
deep-equal to the stored one: `Get(Put(b)) = b`, for every prior store
content and every generated uuid (even a colliding one, since the newest
binding shadows). -/
theorem getBoard_storeBoard_roundtrip (boards : BoardStore) (uuid : String) (board : Board) :
    Am.GetBoard (Am.StoreBoard boards uuid board).2 (Am.StoreBoard boards uuid board).1 =
      .ok board := by
  simp [Am.GetBoard, Am.StoreBoard, List.find?]

/-- C1: at the moment of checkpointing, the controller started paused whose
paused flag a toggle has just cleared holds `Paused = false` (and has just
published `paused = false`), yet the continue-as-new input it hands the
successor instance carries `Paused = true` — the value of `input.Paused`
at instance start, not the value held at the checkpoint. The run's paused
state is therefore not preserved across the instance boundary. -/
theorem checkpoint_paused_not_preserved :
    (runIteration pausedStart .toggle []).map
        (fun r => (r.state.Paused, r.sent.Paused, r.Steps,
          r.continueAsNew.map GameOfLifeInput.Paused)) =
      .ok (false, false, 0, some true) := rfl

/-- C2: processing a splatter command never publishes a splatter delta: the
handler builds a `SplatterInput` whose `Board` field is left `nil`, so the
`Splatter` activity's first-row access fails (a Go panic) for every signal
payload, every controller state and every random draw, and the iteration
aborts (`log.Fatalf`) instead of mutating the board and publishing the
flipped cells. -/
theorem splatter_signal_always_errors (ls : LoopState) (signal : SplatterSignal)
    (rands : List Nat) :
    runIteration ls (.splatter signal) rands = .error "index out of range" := rfl

/-- C3 counterexample: with a blinker board, a running controller at
`Steps = 3` that processes one `toggleStatus` command publishes a delta
whose flipped list is the four-cell generation diff (not empty), whose step
is 4 (not the unchanged 3), and the global board has advanced one
generation — refuting the claim at this input. -/
theorem toggle_delta_not_empty_at_blinker :
    (runIteration runningBlinker .toggle []).map
        (fun r => (r.sent.Paused, r.sent.Flipped, r.sent.Step, r.GolBoard)) =
      .ok (true, [(0, 1), (1, 0), (1, 2), (2, 1)], 4,
        [[false, true, false], [false, true, false], [false, true, false]])
    ∧ ([(0, 1), (1, 0), (1, 2), (2, 1)] : List (Nat × Nat)) ≠ []
    ∧ (4 : Int) ≠ 3
    ∧ [[false, true, false], [false, true, false], [false, true, false]] ≠ blinker :=
  ⟨rfl, by decide, by decide, by decide⟩

/-- C7 counterexample: a paused controller whose global `Steps` is 50
transitions to Checkpointing (continue-as-new) upon processing a
`toggleStatus` command — no tick event is involved, refuting that only
ticks can trigger the Checkpointing transition. -/
theorem toggle_triggers_checkpoint_at_multiple :
    (runIteration pausedAt50 .toggle []).map
        (fun r => (r.continueAsNew.isSome, r.Steps)) = .ok (true, 50) := rfl

/- ------------------------------------------------------------------ -/
/- Loop characterization helpers.                                      -/
/- ------------------------------------------------------------------ -/

/-- Unfolding of a toggle iteration. -/
lemma runIteration_toggle (ls : LoopState) (rands : List Nat) :
    runIteration ls .toggle rands = .ok
      { Steps := if ls.state.Paused then ls.Steps else ls.Steps + 1
        GolBoard := NextGeneration ls.GolBoard
        state := { Id := ls.state.Id, Paused := !ls.state.Paused, TickTime := ls.state.TickTime }
        sent := { Id := ls.state.Id
                  Paused := !ls.state.Paused
                  Step := if ls.state.Paused then ls.Steps else ls.Steps + 1
                  TickTime := ls.state.TickTime
                  Flipped := DiffFlipped ls.GolBoard (NextGeneration ls.GolBoard) }
        continueAsNew :=
          if (if ls.state.Paused then ls.Steps else ls.Steps + 1).tmod DefaultStoreInterval = 0 then
            some { MaxSteps := ls.input.MaxSteps, TickTime := ls.state.TickTime,
                   UseExistingBoard := true, Paused := ls.input.Paused }
          else none } := rfl

/-- Unfolding of a tick-timer iteration. -/
lemma runIteration_timer (ls : LoopState) (rands : List Nat) :
    runIteration ls .timer rands = .ok
      { Steps := if ls.state.Paused then ls.Steps else ls.Steps + 1
        GolBoard := NextGeneration ls.GolBoard
        state := ls.state
        sent := { Id := ls.state.Id
                  Paused := ls.state.Paused
                  Step := if ls.state.Paused then ls.Steps else ls.Steps + 1
                  TickTime := ls.state.TickTime
                  Flipped := DiffFlipped ls.GolBoard (NextGeneration ls.GolBoard) }
        continueAsNew :=
          if (if ls.state.Paused then ls.Steps else ls.Steps + 1).tmod DefaultStoreInterval = 0 then
            some { MaxSteps := ls.input.MaxSteps, TickTime := ls.state.TickTime,
                   UseExistingBoard := true, Paused := ls.input.Paused }
          else none } := rfl

/-- `NextGeneration` keeps the number of rows. -/
lemma length_nextGeneration (b : Board) : (NextGeneration b).length = b.length := by
  simp [NextGeneration]

/-- Every row of `NextGeneration b` has the column count of `b`. -/
lemma mem_nextGeneration_length (b : Board) :
    ∀ row ∈ NextGeneration b, row.length = (b.headD []).length := by
  intro row hrow
  simp only [NextGeneration, List.mem_map, List.mem_range] at hrow
  obtain ⟨i, _, rfl⟩ := hrow
  simp

/-- A row diff is empty exactly when the rows agree (same lengths). -/
lemma diffRow_nil_iff (i : Nat) (c : List Bool) : ∀ (j : Nat) (p : List Bool),
    p.length = c.length → (diffRow i j p c = [] ↔ p = c) := by
  induction c with
  | nil =>
      intro j p h
      simp only [diffRow, List.length_nil, List.length_eq_zero] at h ⊢
      simp [h]
  | cons x xs ih =>
      intro j p h
      cases p with
      | nil => simp at h
      | cons y ys =>
          simp only [List.length_cons, Nat.succ.injEq] at h
          by_cases hyx : y = x
          · subst hyx
            simp only [diffRow, List.headD_cons, bne_self_eq_false, if_neg Bool.false_ne_true,
              List.nil_append, List.tail_cons]
            rw [ih (j + 1) ys h]
            simp
          · simp only [diffRow, List.headD_cons, List.tail_cons]
            rw [if_pos (by simpa [bne_iff_ne] using hyx)]
            simp [hyx]

/-- A board diff is empty exactly when the boards agree (aligned row
lengths). -/
lemma diffRows_nil_iff {prev curr : Board}
    (h : List.Forall₂ (fun a b => a.length = b.length) prev curr) :
    ∀ i : Nat, (diffRows i prev curr = [] ↔ prev = curr) := by
  induction h with
  | nil => intro i; simp [diffRows]
  | @cons p c ps cs hpc _ ih =>
      intro i
      simp only [diffRows, List.headD_cons, List.tail_cons, List.append_eq_nil]
      rw [diffRow_nil_iff i c 0 p hpc, ih (i + 1)]
      simp

/-- Two lists of rows, all of the same length `k`, align per row. -/
lemma forall₂_length_of_uniform : ∀ (l1 l2 : Board) (k : Nat),
    l1.length = l2.length → (∀ r ∈ l1, r.length = k) → (∀ r ∈ l2, r.length = k) →
    List.Forall₂ (fun a b => a.length = b.length) l1 l2 := by
  intro l1
  induction l1 with
  | nil =>
      intro l2 k h _ _
      cases l2 with
      | nil => exact .nil
      | cons s ss => simp at h
  | cons r rs ih =>
      intro l2 k h h1 h2
      cases l2 with
      | nil => simp at h
      | cons s ss =>
          refine .cons ?_ ?_
          · rw [h1 r (by simp), h2 s (by simp)]
          · exact ih ss k (by simpa using h)
              (fun t ht => h1 t (by simp [ht])) (fun t ht => h2 t (by simp [ht]))

/-- The diff from a rectangular board to its next generation is empty
exactly when the board is a fixed point of `NextGeneration`. -/
lemma diffFlipped_nextGeneration_nil_iff (b : Board) (hrect : Rect b) :
    DiffFlipped b (NextGeneration b) = [] ↔ NextGeneration b = b := by
  have hf : List.Forall₂ (fun a c => a.length = c.length) b (NextGeneration b) :=
    forall₂_length_of_uniform b (NextGeneration b) (b.headD []).length
      (length_nextGeneration b).symm hrect (mem_nextGeneration_length b)
  rw [DiffFlipped, diffRows_nil_iff hf 0]
  exact eq_comm

/-- C3 (amended): processing one `toggleStatus` command negates the paused
flag, but the loop then unconditionally advances the board one generation:
the single published delta carries the new paused value, the iteration's
step counter (incremented on entry when the controller was running,
unchanged when paused — `NextGenerationAndSendState` itself never changes
it), and a flipped list that is the cell diff from the old board to its
next generation, which for a rectangular board is empty exactly when the
board is a still life; the global board is mutated to the next
generation. -/
theorem toggle_iteration_behavior (ls : LoopState) (rands : List Nat)
    (hrect : Rect ls.GolBoard) :
    runIteration ls .toggle rands = .ok
      { Steps := if ls.state.Paused then ls.Steps else ls.Steps + 1
        GolBoard := NextGeneration ls.GolBoard
        state := { Id := ls.state.Id, Paused := !ls.state.Paused, TickTime := ls.state.TickTime }
        sent := { Id := ls.state.Id
                  Paused := !ls.state.Paused
                  Step := if ls.state.Paused then ls.Steps else ls.Steps + 1
                  TickTime := ls.state.TickTime
                  Flipped := DiffFlipped ls.GolBoard (NextGeneration ls.GolBoard) }
        continueAsNew :=
          if (if ls.state.Paused then ls.Steps else ls.Steps + 1).tmod DefaultStoreInterval = 0 then
            some { MaxSteps := ls.input.MaxSteps, TickTime := ls.state.TickTime,
                   UseExistingBoard := true, Paused := ls.input.Paused }
          else none }
    ∧ (DiffFlipped ls.GolBoard (NextGeneration ls.GolBoard) = [] ↔
        NextGeneration ls.GolBoard = ls.GolBoard) :=
  ⟨runIteration_toggle ls rands, diffFlipped_nextGeneration_nil_iff ls.GolBoard hrect⟩

/-- Witness for `toggle_iteration_behavior` at the running blinker
controller. -/
theorem toggle_iteration_behavior_witness :
    Rect runningBlinker.GolBoard ∧
    (runIteration runningBlinker .toggle [] = .ok
      { Steps := if runningBlinker.state.Paused then runningBlinker.Steps
                 else runningBlinker.Steps + 1
        GolBoard := NextGeneration runningBlinker.GolBoard
        state := { Id := runningBlinker.state.Id, Paused := !runningBlinker.state.Paused,
                   TickTime := runningBlinker.state.TickTime }
        sent := { Id := runningBlinker.state.Id
                  Paused := !runningBlinker.state.Paused
                  Step := if runningBlinker.state.Paused then runningBlinker.Steps
                          else runningBlinker.Steps + 1
                  TickTime := runningBlinker.state.TickTime
                  Flipped := DiffFlipped runningBlinker.GolBoard
                    (NextGeneration runningBlinker.GolBoard) }
        continueAsNew :=
          if (if runningBlinker.state.Paused then runningBlinker.Steps
              else runningBlinker.Steps + 1).tmod DefaultStoreInterval = 0 then
            some { MaxSteps := runningBlinker.input.MaxSteps,
                   TickTime := runningBlinker.state.TickTime,
                   UseExistingBoard := true, Paused := runningBlinker.input.Paused }
          else none }
    ∧ (DiffFlipped runningBlinker.GolBoard (NextGeneration runningBlinker.GolBoard) = [] ↔
        NextGeneration runningBlinker.GolBoard = runningBlinker.GolBoard)) :=
  ⟨by decide, toggle_iteration_behavior runningBlinker [] (by decide)⟩

/-- C7 (amended): the checkpoint check runs after every processed event,
not only after ticks: whenever an iteration completes (it does for tick and
toggle events; a splatter crashes), the controller transitions to
Checkpointing exactly when the step counter — incremented at the start of
the iteration when the controller was running, untouched by the event
handler itself — is a multiple of the fixed interval 50; in particular a
toggle processed while the counter is a multiple of 50 itself triggers
Checkpointing. -/
theorem checkpoint_check_after_every_event (ls : LoopState) (ev : Event) (rands : List Nat)
    (r : StepResult) (h : runIteration ls ev rands = .ok r) :
    (r.continueAsNew.isSome ↔ r.Steps.tmod DefaultStoreInterval = 0)
    ∧ r.Steps = (if ls.state.Paused then ls.Steps else ls.Steps + 1) := by
  cases ev with
  | timer =>
      rw [runIteration_timer ls rands, Except.ok.injEq] at h
      subst h
      refine ⟨?_, rfl⟩
      by_cases hc : (if ls.state.Paused then ls.Steps else ls.Steps + 1).tmod
          DefaultStoreInterval = 0 <;> simp [hc]
  | toggle =>
      rw [runIteration_toggle ls rands, Except.ok.injEq] at h
      subst h
      refine ⟨?_, rfl⟩
      by_cases hc : (if ls.state.Paused then ls.Steps else ls.Steps + 1).tmod
          DefaultStoreInterval = 0 <;> simp [hc]
  | splatter signal =>
      have e : runIteration ls (.splatter signal) rands = .error "index out of range" := rfl
      rw [e] at h
      exact Except.noConfusion h

/- ------------------------------------------------------------------ -/
/- The automaton rule (C4).                                            -/
/- ------------------------------------------------------------------ -/

/-- Counting by a fold of conditional increments is `countP`. -/
lemma foldl_count {α : Type} (f : α → Bool) :
    ∀ (l : List α) (n : Nat),
      List.foldl (fun c a => if f a then c + 1 else c) n l = n + l.countP f := by
  intro l
  induction l with
  | nil => intro n; simp
  | cons a as ih =>
      intro n
      by_cases h : f a
      · simp [List.foldl, h, ih, List.countP_cons]
        omega
      · simp [List.foldl, h, ih, List.countP_cons]

/-- `countP` only looks at the values of the predicate on the list. -/
lemma countP_congr_local {α : Type} (f g : α → Bool) :
    ∀ l : List α, (∀ a ∈ l, f a = g a) → l.countP f = l.countP g := by
  intro l
  induction l with
  | nil => intro _; simp
  | cons a as ih =>
      intro h
      simp only [List.countP_cons, h a (by simp), ih (fun b hb => h b (by simp [hb]))]

/-- A skip-else-count-step collapses to one conditional increment. -/
lemma if_skip_if_count {A : Prop} [Decidable A] (b : Bool) (c : Nat) :
    (if A then c else if b then c + 1 else c) = if (!decide A && b) then c + 1 else c := by
  by_cases hA : A <;> cases b <;> simp [hA]

/-- The fold of `countAliveNeighbors` counts the offsets passing both the
bounds check and the cell read. -/
lemma countAliveNeighbors_eq_countP (board : Board) (i j : Int) :
    countAliveNeighbors board i j = neighborOffsets.countP (fun d =>
      !(decide (i + d.1 < 0 ∨ (board.length : Int) ≤ i + d.1 ∨ j + d.2 < 0 ∨
          ((board.headD []).length : Int) ≤ j + d.2))
      && (board.getD (i + d.1).toNat []).getD (j + d.2).toNat false) := by
  have h : (fun (count : Nat) (d : Int × Int) =>
      if i + d.1 < 0 ∨ (board.length : Int) ≤ i + d.1 ∨ j + d.2 < 0 ∨
          ((board.headD []).length : Int) ≤ j + d.2 then
        count
      else if (board.getD (i + d.1).toNat []).getD (j + d.2).toNat false then count + 1
      else count)
    = (fun (count : Nat) (d : Int × Int) =>
        if (!(decide (i + d.1 < 0 ∨ (board.length : Int) ≤ i + d.1 ∨ j + d.2 < 0 ∨
            ((board.headD []).length : Int) ≤ j + d.2))
          && (board.getD (i + d.1).toNat []).getD (j + d.2).toNat false) then count + 1
        else count) := by
    funext count d
    exact if_skip_if_count _ _
  rw [countAliveNeighbors, h, foldl_count]
  exact Nat.zero_add _

/-- On a rectangular board the code's guarded cell read is the spec's
off-grid-dead read. -/
lemma code_read_eq_specCell (board : Board) (hrect : Rect board) (r c : Int) :
    (!(decide (r < 0 ∨ (board.length : Int) ≤ r ∨ c < 0 ∨
        ((board.headD []).length : Int) ≤ c))
      && (board.getD r.toNat []).getD c.toNat false) = specCell board r c := by
  by_cases hr : 0 ≤ r ∧ r < (board.length : Int)
  · have hlt : r.toNat < board.length := by omega
    have hrow : (board.getD r.toNat []).length = (board.headD []).length := by
      rw [List.getD_eq_getElem _ _ hlt]
      exact hrect _ (List.getElem_mem hlt)
    by_cases hc : 0 ≤ c ∧ c < ((board.headD []).length : Int)
    · have hA : ¬(r < 0 ∨ (board.length : Int) ≤ r ∨ c < 0 ∨
          ((board.headD []).length : Int) ≤ c) := by omega
      have hc' : 0 ≤ c ∧ c < ((board.getD r.toNat []).length : Int) := by
        rw [hrow]; omega
      unfold specCell
      rw [if_pos hr, if_pos hc', decide_eq_false hA]
      simp
    · have hA : r < 0 ∨ (board.length : Int) ≤ r ∨ c < 0 ∨
          ((board.headD []).length : Int) ≤ c := by omega
      have hc' : ¬(0 ≤ c ∧ c < ((board.getD r.toNat []).length : Int)) := by
        rw [hrow]; omega
      unfold specCell
      rw [if_pos hr, if_neg hc', decide_eq_true hA]
      simp
  · have hA : r < 0 ∨ (board.length : Int) ≤ r ∨ c < 0 ∨
        ((board.headD []).length : Int) ≤ c := by omega
    unfold specCell
    rw [if_neg hr, decide_eq_true hA]
    simp

/-- On a rectangular board the code's neighbor count agrees with the
spec's Moore-neighborhood count. -/
lemma countAliveNeighbors_eq_mooreCount (board : Board) (hrect : Rect board) (i j : Int) :
    countAliveNeighbors board i j = mooreCount board i j := by
  rw [countAliveNeighbors_eq_countP, mooreCount]
  exact countP_congr_local _ _ neighborOffsets
    (fun d _ => code_read_eq_specCell board hrect (i + d.1) (j + d.2))

/-- `getD` through a `map` over `range`. -/
lemma getD_map_range {α : Type} (f : Nat → α) (n i : Nat) (d : α) (h : i < n) :
    ((List.range n).map f).getD i d = f i := by
  rw [List.getD_eq_getElem _ _ (by simpa using h)]
  simp

/-- On a rectangular board, `specCell` at in-range natural coordinates is
the raw `getD` read. -/
lemma specCell_natCast (board : Board) (hrect : Rect board) (i j : Nat)
    (hi : i < board.length) (hj : j < (board.headD []).length) :
    specCell board (i : Int) (j : Int) = (board.getD i []).getD j false := by
  have hrow : (board.getD i []).length = (board.headD []).length := by
    rw [List.getD_eq_getElem _ _ hi]
    exact hrect _ (List.getElem_mem hi)
  unfold specCell
  rw [if_pos (show (0 : Int) ≤ (i : Int) ∧ (i : Int) < (board.length : Int) by omega)]
  simp only [Int.toNat_natCast]
  rw [if_pos (show (0 : Int) ≤ (j : Int) ∧ (j : Int) < ((board.getD i []).length : Int) by
    rw [hrow]; omega)]

/-- The first row of `NextGeneration` has the column count of the input
(nonempty input). -/
lemma headD_nextGeneration_length (board : Board) (hne : board ≠ []) :
    ((NextGeneration board).headD []).length = (board.headD []).length := by
  cases hcase : NextGeneration board with
  | nil =>
      exfalso
      have hl := length_nextGeneration board
      rw [hcase] at hl
      simp only [List.length_nil] at hl
      exact hne (List.length_eq_zero.mp hl.symm)
  | cons a as =>
      simp only [List.headD_cons]
      refine mem_nextGeneration_length board a ?_
      rw [hcase]
      exact List.mem_cons_self a as

/-- `NextGeneration` of a nonempty rectangular board is rectangular. -/
lemma rect_nextGeneration (board : Board) (hne : board ≠ []) :
    Rect (NextGeneration board) := by
  intro row hrow
  rw [headD_nextGeneration_length board hne]
  exact mem_nextGeneration_length board row hrow

/-- C4: on a nonempty rectangular board, `NextGeneration` returns a board
of identical dimensions in which a cell is alive iff it was alive with 2
or 3 live Moore neighbors, or dead with exactly 3 live Moore neighbors,
with off-grid positions counting as dead (no wraparound). -/
theorem nextGeneration_correct (board : Board) (hne : board ≠ []) (hrect : Rect board) :
    (NextGeneration board).length = board.length
    ∧ (∀ row ∈ NextGeneration board, row.length = (board.headD []).length)
    ∧ ∀ i j : Nat, i < board.length → j < (board.headD []).length →
        (specCell (NextGeneration board) (i : Int) (j : Int) = true ↔
          ((specCell board (i : Int) (j : Int) = true ∧
              (mooreCount board (i : Int) (j : Int) = 2 ∨
                mooreCount board (i : Int) (j : Int) = 3))
            ∨ (specCell board (i : Int) (j : Int) = false ∧
                mooreCount board (i : Int) (j : Int) = 3))) := by
  refine ⟨length_nextGeneration board, mem_nextGeneration_length board, ?_⟩
  intro i j hi hj
  have hXeq : specCell (NextGeneration board) (i : Int) (j : Int) =
      (if (board.getD i []).getD j false then
        (mooreCount board (i : Int) (j : Int) == 2 || mooreCount board (i : Int) (j : Int) == 3)
      else (mooreCount board (i : Int) (j : Int) == 3)) := by
    rw [specCell_natCast (NextGeneration board) (rect_nextGeneration board hne) i j
      (by rw [length_nextGeneration]; exact hi)
      (by rw [headD_nextGeneration_length board hne]; exact hj)]
    unfold NextGeneration
    rw [getD_map_range _ _ _ _ hi, getD_map_range _ _ _ _ hj,
      countAliveNeighbors_eq_mooreCount board hrect]
  rw [hXeq, specCell_natCast board hrect i j hi hj]
  cases hX : (board.getD i []).getD j false <;> simp [hX]

/-- Witness for `nextGeneration_correct` at the blinker board. -/
theorem nextGeneration_correct_witness :
    (blinker ≠ [] ∧ Rect blinker) ∧
    ((NextGeneration blinker).length = blinker.length
    ∧ (∀ row ∈ NextGeneration blinker, row.length = (blinker.headD []).length)
    ∧ ∀ i j : Nat, i < blinker.length → j < (blinker.headD []).length →
        (specCell (NextGeneration blinker) (i : Int) (j : Int) = true ↔
          ((specCell blinker (i : Int) (j : Int) = true ∧
              (mooreCount blinker (i : Int) (j : Int) = 2 ∨
                mooreCount blinker (i : Int) (j : Int) = 3))
            ∨ (specCell blinker (i : Int) (j : Int) = false ∧
                mooreCount blinker (i : Int) (j : Int) = 3)))) :=
  ⟨⟨by decide, by decide⟩, nextGeneration_correct blinker (by decide) (by decide)⟩

/- ------------------------------------------------------------------ -/
/- The board-from-nothing delta (C8).                                  -/
/- ------------------------------------------------------------------ -/

/-- Diffing a row against an all-false row lists exactly its live cells. -/
lemma diffRow_allFalse (i : Nat) (c : List Bool) : ∀ (j : Nat) (p : List Bool),
    AllFalse p → diffRow i j p c = rowLiveFrom i j c := by
  induction c with
  | nil => intro j p _; rfl
  | cons x xs ih =>
      intro j p hp
      have hh : p.headD false = false := by
        cases p with
        | nil => rfl
        | cons a as => exact hp a (by simp)
      have ht : AllFalse p.tail := by
        intro b hb
        exact hp b (List.mem_of_mem_tail hb)
      simp only [diffRow, hh, ih (j + 1) p.tail ht, rowLiveFrom]
      congr 1
      cases x <;> rfl

/-- Diffing a board against an all-false board lists exactly its live
cells, in row-major order. -/
lemma diffRows_allFalse (curr : Board) : ∀ (i : Nat) (prev : Board),
    (∀ row ∈ prev, AllFalse row) → diffRows i prev curr = liveCellsFrom i curr := by
  induction curr with
  | nil => intro i prev _; rfl
  | cons row rest ih =>
      intro i prev hp
      simp only [diffRows, liveCellsFrom]
      congr 1
      · refine diffRow_allFalse i row 0 (prev.headD []) ?_
        cases prev with
        | nil => intro b hb; simp at hb
        | cons p ps => exact hp p (by simp)
      · refine ih (i + 1) prev.tail ?_
        intro r hr
        cases prev with
        | nil => simp at hr
        | cons p ps => exact hp r (List.mem_cons_of_mem p hr)

/-- Bumping the column start shifts every listed column index. -/
lemma rowLiveFrom_succ (i : Nat) (c : List Bool) : ∀ j : Nat,
    rowLiveFrom i (j + 1) c = (rowLiveFrom i j c).map (fun p => (p.1, p.2 + 1)) := by
  induction c with
  | nil => intro j; rfl
  | cons x xs ih =>
      intro j
      simp only [rowLiveFrom, List.map_append, ih (j + 1)]
      congr 1
      cases x <;> rfl

/-- Bumping the row index shifts every listed row index, within a row. -/
lemma rowLiveFrom_fst_succ (i : Nat) (c : List Bool) : ∀ j : Nat,
    rowLiveFrom (i + 1) j c = (rowLiveFrom i j c).map (fun p => (p.1 + 1, p.2)) := by
  induction c with
  | nil => intro j; rfl
  | cons x xs ih =>
      intro j
      simp only [rowLiveFrom, List.map_append, ih (j + 1)]
      congr 1
      cases x <;> rfl

/-- Every coordinate listed for a row carries that row's index. -/
lemma rowLiveFrom_fst (i : Nat) (c : List Bool) : ∀ (j : Nat) (p : Nat × Nat),
    p ∈ rowLiveFrom i j c → p.1 = i := by
  induction c with
  | nil => intro j p hp; simp [rowLiveFrom] at hp
  | cons x xs ih =>
      intro j p hp
      simp only [rowLiveFrom, List.mem_append] at hp
      rcases hp with hp | hp
      · cases x with
        | true =>
            simp only [if_true, List.mem_singleton] at hp
            rw [hp]
        | false => simp at hp
      · exact ih (j + 1) p hp

/-- Bumping the row start shifts every listed row index. -/
lemma liveCellsFrom_succ (b : Board) : ∀ i : Nat,
    liveCellsFrom (i + 1) b = (liveCellsFrom i b).map (fun p => (p.1 + 1, p.2)) := by
  induction b with
  | nil => intro i; rfl
  | cons row rest ih =>
      intro i
      simp only [liveCellsFrom, List.map_append, ih (i + 1), rowLiveFrom_fst_succ]

/-- Flips all targeting row 0 act on the head row only. -/
lemma applyFlips_row_zero : ∀ (flips : List (Nat × Nat)) (z0 : List Bool) (zt : Board),
    (∀ p ∈ flips, p.1 = 0) →
    applyFlips (z0 :: zt) flips = applyRowFlips z0 flips :: zt := by
  intro flips
  induction flips with
  | nil => intro z0 zt _; rfl
  | cons p ps ih =>
      intro z0 zt hp
      obtain ⟨p1, p2⟩ := p
      have h0 : p1 = 0 := hp (p1, p2) (by simp)
      subst h0
      simp only [applyFlips, List.foldl_cons]
      have := ih (z0.set p2 (!z0.getD p2 false)) zt (fun q hq => hp q (by simp [hq]))
      simpa [applyFlips, applyRowFlips] using this

/-- Flips with shifted row indices leave the head row alone. -/
lemma applyFlips_shift : ∀ (flips : List (Nat × Nat)) (z0 : List Bool) (zt : Board),
    applyFlips (z0 :: zt) (flips.map (fun p => (p.1 + 1, p.2))) =
      z0 :: applyFlips zt flips := by
  intro flips
  induction flips with
  | nil => intro z0 zt; rfl
  | cons p ps ih =>
      intro z0 zt
      obtain ⟨p1, p2⟩ := p
      simp only [List.map_cons, applyFlips, List.foldl_cons]
      have := ih z0 (zt.set p1 ((zt.getD p1 []).set p2 (!(zt.getD p1 []).getD p2 false)))
      simpa [applyFlips] using this

/-- Row flips with shifted column indices leave the head cell alone. -/
lemma applyRowFlips_shift : ∀ (flips : List (Nat × Nat)) (z : Bool) (zs : List Bool),
    applyRowFlips (z :: zs) (flips.map (fun p => (p.1, p.2 + 1))) =
      z :: applyRowFlips zs flips := by
  intro flips
  induction flips with
  | nil => intro z zs; rfl
  | cons p ps ih =>
      intro z zs
      obtain ⟨p1, p2⟩ := p
      simp only [List.map_cons, applyRowFlips, List.foldl_cons]
      have := ih z (zs.set p2 (!zs.getD p2 false))
      simpa [applyRowFlips] using this

/-- Toggling the live positions of `c` into an equally long all-false row
reconstructs `c`. -/
lemma applyRowFlips_reconstructs (i : Nat) : ∀ (c z : List Bool),
    z.length = c.length → AllFalse z → applyRowFlips z (rowLiveFrom i 0 c) = c := by
  intro c
  induction c with
  | nil =>
      intro z hlen _
      rw [List.length_eq_zero.mp hlen]
      rfl
  | cons x xs ih =>
      intro z hlen hz
      cases z with
      | nil => simp at hlen
      | cons a as =>
          have ha : a = false := hz a (by simp)
          subst ha
          have hlen' : as.length = xs.length := by simpa using hlen
          have hz' : AllFalse as := fun b hb => hz b (by simp [hb])
          cases x with
          | true =>
              show applyRowFlips (false :: as) ([(i, 0)] ++ rowLiveFrom i 1 xs) = true :: xs
              rw [applyRowFlips, List.foldl_append]
              show applyRowFlips ((false :: as).set 0 (!(false :: as).getD 0 false))
                (rowLiveFrom i 1 xs) = true :: xs
              rw [show ((false :: as).set 0 (!(false :: as).getD 0 false)) = true :: as from rfl]
              rw [rowLiveFrom_succ i xs 0, applyRowFlips_shift, ih as hlen' hz']
          | false =>
              show applyRowFlips (false :: as) ([] ++ rowLiveFrom i 1 xs) = false :: xs
              rw [List.nil_append, rowLiveFrom_succ i xs 0, applyRowFlips_shift, ih as hlen' hz']

/-- Toggling the live cells of `b` into an all-false board of the same
dimensions reconstructs `b`. -/
lemma applyFlips_reconstructs : ∀ {z b : Board},
    List.Forall₂ (fun zr br => zr.length = br.length) z b →
    (∀ r ∈ z, AllFalse r) → applyFlips z (liveCellsFrom 0 b) = b := by
  intro z b h
  induction h with
  | nil => intro _; rfl
  | @cons z0 b0 zt rest hlen htail ih =>
      intro hz
      show applyFlips (z0 :: zt) (rowLiveFrom 0 0 b0 ++ liveCellsFrom 1 rest) = b0 :: rest
      rw [applyFlips, List.foldl_append]
      rw [show (List.foldl _ (z0 :: zt) (rowLiveFrom 0 0 b0) : Board) =
        applyFlips (z0 :: zt) (rowLiveFrom 0 0 b0) from rfl]
      rw [applyFlips_row_zero (rowLiveFrom 0 0 b0) z0 zt
        (fun p hp => rowLiveFrom_fst 0 b0 0 p hp)]
      rw [applyRowFlips_reconstructs 0 b0 z0 hlen (hz z0 (by simp))]
      rw [liveCellsFrom_succ rest 0]
      rw [show (List.foldl _ (b0 :: zt) ((liveCellsFrom 0 rest).map (fun p => (p.1 + 1, p.2))) :
        Board) = applyFlips (b0 :: zt) ((liveCellsFrom 0 rest).map (fun p => (p.1 + 1, p.2)))
        from rfl]
      rw [applyFlips_shift, ih (fun r hr => hz r (by simp [hr]))]

/-- C8: for a run state whose board has the default dimensions, the
board-from-nothing delta flips exactly the live cells of the current board
in row-major order, and toggling those flips into an all-dead default-sized
board reconstructs the current board. -/
theorem stateChangeFromNothing_reconstructs (g : Gol)
    (hlen : g.Board.length = DefaultBoardLength)
    (hrows : ∀ row ∈ g.Board, row.length = DefaultBoardWidth) :
    (StateChangeFromNothing g).Flipped = liveCellsRowMajor g.Board
    ∧ applyFlips (List.replicate DefaultBoardLength (List.replicate DefaultBoardWidth false))
        (StateChangeFromNothing g).Flipped = g.Board := by
  have hzrows : ∀ r ∈ List.replicate DefaultBoardLength (List.replicate DefaultBoardWidth false),
      AllFalse r := by
    intro r hr
    intro b hb
    rw [List.eq_of_mem_replicate hr] at hb
    exact List.eq_of_mem_replicate hb
  have hflip : (StateChangeFromNothing g).Flipped = liveCellsRowMajor g.Board := by
    show DiffFlipped (List.replicate DefaultBoardLength (List.replicate DefaultBoardWidth false))
      g.Board = liveCellsRowMajor g.Board
    rw [DiffFlipped, liveCellsRowMajor]
    exact diffRows_allFalse g.Board 0 _ hzrows
  refine ⟨hflip, ?_⟩
  rw [hflip, liveCellsRowMajor]
  refine applyFlips_reconstructs ?_ hzrows
  refine forall₂_length_of_uniform _ _ DefaultBoardWidth ?_ ?_ hrows
  · rw [List.length_replicate, hlen]
  · intro r hr
    rw [List.eq_of_mem_replicate hr, List.length_replicate]

/-- Witness for `stateChangeFromNothing_reconstructs` at the all-dead
default-sized run state. -/
theorem stateChangeFromNothing_reconstructs_witness :
    (emptyDefaultGol.Board.length = DefaultBoardLength
      ∧ ∀ row ∈ emptyDefaultGol.Board, row.length = DefaultBoardWidth)
    ∧ ((StateChangeFromNothing emptyDefaultGol).Flipped = liveCellsRowMajor emptyDefaultGol.Board
      ∧ applyFlips (List.replicate DefaultBoardLength (List.replicate DefaultBoardWidth false))
          (StateChangeFromNothing emptyDefaultGol).Flipped = emptyDefaultGol.Board) :=
  ⟨⟨by simp [emptyDefaultGol],
    by
      intro row hrow
      simp only [emptyDefaultGol] at hrow
      rw [List.eq_of_mem_replicate hrow, List.length_replicate]⟩,
   stateChangeFromNothing_reconstructs emptyDefaultGol (by simp [emptyDefaultGol])
     (by
       intro row hrow
       simp only [emptyDefaultGol] at hrow
       rw [List.eq_of_mem_replicate hrow, List.length_replicate])⟩

/-- Witness for `checkpoint_check_after_every_event` at a tick of the
running blinker controller. -/
theorem checkpoint_check_after_every_event_witness :
    runIteration runningBlinker .timer [] = .ok
      { Steps := 4
        GolBoard := [[false, true, false], [false, true, false], [false, true, false]]
        state := { Id := "run-1", Paused := false, TickTime := 250000000 }
        sent := { Id := "run-1", Paused := false, Step := 4, TickTime := 250000000,
                  Flipped := [(0, 1), (1, 0), (1, 2), (2, 1)] }
        continueAsNew := none }
    ∧ ((Option.isSome (none : Option GameOfLifeInput) ↔ (4 : Int).tmod DefaultStoreInterval = 0)
        ∧ (4 : Int) = (if runningBlinker.state.Paused then runningBlinker.Steps
                       else runningBlinker.Steps + 1)) :=
  ⟨rfl, checkpoint_check_after_every_event runningBlinker .timer [] _ rfl⟩

/- ------------------------------------------------------------------ -/
/- Cell update lemmas (C5, C6, C10).                                   -/
/- ------------------------------------------------------------------ -/

/-- `getD` through a `set`. -/
lemma getD_set {α : Type} (l : List α) (n : Nat) (v d : α) (j : Nat) :
    (l.set n v).getD j d = if j = n ∧ n < l.length then v else l.getD j d := by
  by_cases hj : j = n
  · subst hj
    by_cases hlt : j < l.length
    · rw [if_pos ⟨rfl, hlt⟩, List.getD_eq_getElem?_getD, List.getElem?_set_eq_of_lt _ hlt]
      rfl
    · rw [if_neg (fun hc => hlt hc.2), List.set_eq_of_length_le (Nat.le_of_not_lt hlt)]
  · rw [if_neg (fun hc => hj hc.1), List.getD_eq_getElem?_getD,
      List.getElem?_set_ne (fun hc => hj hc.symm), ← List.getD_eq_getElem?_getD]

/-- Characterization of a live `specCell` read. -/
lemma specCell_eq_true_iff (b : Board) (i j : Int) :
    specCell b i j = true ↔
      (0 ≤ i ∧ i < (b.length : Int)) ∧
        (0 ≤ j ∧ j < ((b.getD i.toNat []).length : Int)) ∧
        (b.getD i.toNat []).getD j.toNat false = true := by
  unfold specCell
  by_cases hi : 0 ≤ i ∧ i < (b.length : Int)
  · rw [if_pos hi]
    by_cases hj : 0 ≤ j ∧ j < ((b.getD i.toNat []).length : Int)
    · rw [if_pos hj]
      exact ⟨fun h => ⟨hi, hj, h⟩, fun h => h.2.2⟩
    · rw [if_neg hj]
      exact ⟨fun h => absurd h Bool.false_ne_true, fun h => absurd h.2.1 hj⟩
  · rw [if_neg hi]
    exact ⟨fun h => absurd h Bool.false_ne_true, fun h => absurd h.1 hi⟩

/-- `setCell` keeps the row count. -/
lemma length_setCell (b : Board) (r c : Nat) (v : Bool) :
    (setCell b r c v).length = b.length := by
  unfold setCell
  simp

/-- `setCell` row content. -/
lemma getD_setCell (b : Board) (r c : Nat) (v : Bool) (k : Nat) :
    (setCell b r c v).getD k [] =
      if k = r ∧ r < b.length then (b.getD r []).set c v else b.getD k [] := by
  unfold setCell
  exact getD_set b r _ [] k

/-- `setCell` keeps every row length. -/
lemma getD_setCell_length (b : Board) (r c : Nat) (v : Bool) (k : Nat) :
    ((setCell b r c v).getD k []).length = (b.getD k []).length := by
  rw [getD_setCell]
  by_cases hk : k = r ∧ r < b.length
  · rw [if_pos hk, hk.1]
    simp
  · rw [if_neg hk]

/-- Setting a cell true keeps live cells live. -/
lemma specCell_setCell_mono (b : Board) (r c : Nat) (i j : Int)
    (h : specCell b i j = true) : specCell (setCell b r c true) i j = true := by
  rw [specCell_eq_true_iff] at h ⊢
  obtain ⟨hi, hj, hread⟩ := h
  refine ⟨by rw [length_setCell]; exact hi, ?_, ?_⟩
  · rw [getD_setCell_length]
    exact hj
  · rw [getD_setCell]
    by_cases hk : i.toNat = r ∧ r < b.length
    · rw [if_pos hk, ← hk.1, getD_set]
      by_cases hc : j.toNat = c ∧ c < (b.getD i.toNat []).length
      · rw [if_pos hc]
      · rw [if_neg hc]
        exact hread
    · rw [if_neg hk]
      exact hread

/-- A cell live after `setCell ... true` was live before or is the set
position. -/
lemma specCell_setCell_rev (b : Board) (r c : Nat) (i j : Int)
    (h : specCell (setCell b r c true) i j = true) :
    specCell b i j = true ∨ (i = (r : Int) ∧ j = (c : Int)) := by
  rw [specCell_eq_true_iff] at h
  obtain ⟨hi, hj, hread⟩ := h
  rw [length_setCell] at hi
  rw [getD_setCell_length] at hj
  rw [getD_setCell] at hread
  by_cases hk : i.toNat = r ∧ r < b.length
  · rw [if_pos hk, ← hk.1, getD_set] at hread
    by_cases hc : j.toNat = c ∧ c < (b.getD i.toNat []).length
    · right
      obtain ⟨hk1, _⟩ := hk
      obtain ⟨hc1, _⟩ := hc
      constructor
      · omega
      · omega
    · left
      rw [specCell_eq_true_iff]
      rw [if_neg hc] at hread
      exact ⟨hi, hj, hread⟩
  · left
    rw [if_neg hk] at hread
    rw [specCell_eq_true_iff]
    exact ⟨hi, hj, hread⟩

/-- The set position is live after `setCell ... true` (in bounds). -/
lemma specCell_setCell_self (b : Board) (r c : Nat)
    (hr : r < b.length) (hc : c < (b.getD r []).length) :
    specCell (setCell b r c true) (r : Int) (c : Int) = true := by
  rw [specCell_eq_true_iff]
  simp only [Int.toNat_natCast]
  refine ⟨⟨by omega, ?_⟩, ⟨by omega, ?_⟩, ?_⟩
  · rw [length_setCell]
    omega
  · rw [getD_setCell_length]
    omega
  · rw [getD_setCell, if_pos ⟨rfl, hr⟩, getD_set, if_pos ⟨rfl, hc⟩]

/-- The splatter offset loop preserves dimensions, only activates cells,
and every newly activated cell lies within Chebyshev distance `radius` of
the origin. -/
lemma splatterLoop_invariant (row col radius : Int) :
    ∀ (n : Nat) (board : Board) (rands rands' : List Nat) (b' : Board),
      V3.splatterLoop row col radius board n rands = .ok (b', rands') →
      b'.length = board.length
      ∧ (∀ k : Nat, (b'.getD k []).length = (board.getD k []).length)
      ∧ (∀ i j : Int, specCell board i j = true → specCell b' i j = true)
      ∧ (∀ i j : Int, specCell board i j = false → specCell b' i j = true →
          row - radius ≤ i ∧ i ≤ row + radius ∧ col - radius ≤ j ∧ j ≤ col + radius) := by
  intro n
  induction n with
  | zero =>
      intro board rands rands' b' h
      simp only [V3.splatterLoop, Except.ok.injEq, Prod.mk.injEq] at h
      obtain ⟨rfl, rfl⟩ := h
      refine ⟨rfl, fun k => rfl, fun i j hij => hij, fun i j hf ht => ?_⟩
      rw [hf] at ht
      exact Bool.noConfusion ht
  | succ n ih =>
      intro board rands rands' b' h
      unfold V3.splatterLoop at h
      by_cases hrad : radius * 2 + 1 ≤ 0
      · simp only [randIntn, if_pos hrad] at h
        exact Except.noConfusion h
      · simp only [randIntn, if_neg hrad] at h
        have hv1 : rands.headD 0 % (radius * 2 + 1).toNat < (radius * 2 + 1).toNat :=
          Nat.mod_lt _ (by omega)
        have hv2 : rands.tail.headD 0 % (radius * 2 + 1).toNat < (radius * 2 + 1).toNat :=
          Nat.mod_lt _ (by omega)
        split at h
        next hbnd =>
            obtain ⟨hlen, hrows, hmono, hnew⟩ := ih _ _ _ _ h
            refine ⟨by rw [hlen, length_setCell], fun k => by rw [hrows k, getD_setCell_length],
              fun i j hij => hmono i j (specCell_setCell_mono _ _ _ _ _ hij),
              fun i j hf ht => ?_⟩
            by_cases hmid : specCell (setCell board
                (row + ((rands.headD 0 % (radius * 2 + 1).toNat : Nat) - radius)).toNat
                (col + ((rands.tail.headD 0 % (radius * 2 + 1).toNat : Nat) - radius)).toNat
                true) i j = true
            · rcases specCell_setCell_rev _ _ _ _ _ hmid with hb | ⟨hieq, hjeq⟩
              · rw [hf] at hb
                exact Bool.noConfusion hb
              · obtain ⟨hb1, hb2, hb3, hb4⟩ := hbnd
                omega
            · exact hnew i j (Bool.not_eq_true _ ▸ eq_false_of_ne_true hmid) ht
        next hbnd =>
            exact ih _ _ _ _ h

/-- The splatter offset loop always succeeds for a non-negative radius. -/
lemma splatterLoop_ok (row col radius : Int) (hrad : 0 ≤ radius) :
    ∀ (n : Nat) (board : Board) (rands : List Nat),
      ∃ b' rands', V3.splatterLoop row col radius board n rands = .ok (b', rands') := by
  intro n
  induction n with
  | zero => exact fun board rands => ⟨board, rands, rfl⟩
  | succ n ih =>
      intro board rands
      have hpos : ¬(radius * 2 + 1 ≤ 0) := by omega
      unfold V3.splatterLoop
      simp only [randIntn, if_neg hpos]
      exact ih _ _

/-- C10: `Splatter` is monotone on cell liveness: whenever the
`NumCellsToSet` splatter returns a board, every cell that was alive in the
input board is still alive in it — splattering only activates cells. -/
theorem splatter_monotone (input : V3.SplatterInput) (rands : List Nat)
    (b' : Board) (rands' : List Nat)
    (h : V3.Am.Splatter input rands = .ok (b', rands')) :
    ∀ i j : Int, specCell input.Board i j = true → specCell b' i j = true := by
  unfold V3.Am.Splatter at h
  cases hloop : V3.splatterLoop input.Row input.Col input.Radius input.Board
      input.NumCellsToSet.toNat rands with
  | error e =>
      rw [hloop] at h
      exact Except.noConfusion h
  | ok p =>
      obtain ⟨b1, r1⟩ := p
      rw [hloop] at h
      split at h
      · rename_i heq
        exact Except.noConfusion heq
      · rename_i b2 r2 heq
        injection heq with hpair
        obtain ⟨hb2, hr2⟩ := Prod.mk.injEq .. |>.mp hpair
        subst hb2
        subst hr2
        split at h
        · injection h with hp
          obtain ⟨hb, _⟩ := Prod.mk.injEq .. |>.mp hp
          subst hb
          intro i j hij
          exact specCell_setCell_mono _ _ _ _ _
            ((splatterLoop_invariant _ _ _ _ _ _ _ _ hloop).2.2.1 i j hij)
        · exact Except.noConfusion h

/-- Witness for `splatter_monotone`: a concrete splatter on a board with a
live corner cell keeps that cell live. -/
theorem splatter_monotone_witness :
    V3.Am.Splatter cornerSplatterInput [2, 2]
      = .ok ([[true, false, false], [false, true, false], [false, false, true]], [])
    ∧ specCell [[true, false, false], [false, true, false], [false, false, true]] 0 0 = true :=
  ⟨rfl,
   splatter_monotone cornerSplatterInput [2, 2]
     [[true, false, false], [false, true, false], [false, false, true]] [] rfl 0 0 rfl⟩

/-- C5 counterexample: with radius 1, one drawn offset pair `(1, 1)` newly
activates the cell `(2, 2)` from origin `(1, 1)` — a cell at squared
Euclidean distance 2, strictly beyond the claimed Euclidean radius 1 (the
offsets are drawn from the square, not the disc). -/
theorem splatter_escapes_euclidean_radius :
    V3.Am.Splatter centerSplatterInput [2, 2]
      = .ok ([[false, false, false], [false, true, false], [false, false, true]], [])
    ∧ specCell deadBoard3 2 2 = false
    ∧ specCell [[false, false, false], [false, true, false], [false, false, true]] 2 2 = true
    ∧ ¬((2 - 1 : Int) * (2 - 1) + (2 - 1 : Int) * (2 - 1) ≤ 1 * 1) :=
  ⟨rfl, rfl, rfl, by decide⟩

/-- C5 (amended): for every board, in-bounds origin, radius `R ≥ 0` and
count `N`, the `NumCellsToSet` splatter succeeds, the origin is alive in
the result regardless of `N`, and every newly-live cell lies within
Chebyshev distance `R` of the origin (both coordinate offsets at most `R`
in absolute value) — the square, not the Euclidean disc. -/
theorem splatter_chebyshev_bound (input : V3.SplatterInput) (rands : List Nat)
    (hrad : 0 ≤ input.Radius)
    (hrow : 0 ≤ input.Row ∧ input.Row < (input.Board.length : Int))
    (hcol : 0 ≤ input.Col ∧ input.Col < ((input.Board.getD input.Row.toNat []).length : Int)) :
    ∃ b' rands', V3.Am.Splatter input rands = .ok (b', rands')
      ∧ specCell b' input.Row input.Col = true
      ∧ ∀ i j : Int, specCell input.Board i j = false → specCell b' i j = true →
          input.Row - input.Radius ≤ i ∧ i ≤ input.Row + input.Radius ∧
          input.Col - input.Radius ≤ j ∧ j ≤ input.Col + input.Radius := by
  obtain ⟨b1, r1, hloop⟩ := splatterLoop_ok input.Row input.Col input.Radius hrad
    input.NumCellsToSet.toNat input.Board rands
  obtain ⟨hlen, hrows, hmono, hnew⟩ := splatterLoop_invariant _ _ _ _ _ _ _ _ hloop
  have hcond : 0 ≤ input.Row ∧ input.Row < (b1.length : Int) ∧
      0 ≤ input.Col ∧ input.Col < ((b1.getD input.Row.toNat []).length : Int) := by
    refine ⟨hrow.1, ?_, hcol.1, ?_⟩
    · rw [hlen]
      exact hrow.2
    · rw [hrows]
      exact hcol.2
  refine ⟨setCell b1 input.Row.toNat input.Col.toNat true, r1, ?_, ?_, ?_⟩
  · simp only [V3.Am.Splatter, hloop]
    rw [if_pos hcond]
  · have hr' : input.Row.toNat < b1.length := by
      rw [hlen]
      omega
    have hc' : input.Col.toNat < (b1.getD input.Row.toNat []).length := by
      rw [hrows]
      omega
    have hself := specCell_setCell_self b1 input.Row.toNat input.Col.toNat hr' hc'
    rw [Int.toNat_of_nonneg hrow.1, Int.toNat_of_nonneg hcol.1] at hself
    exact hself
  · intro i j hf ht
    by_cases hmid : specCell b1 i j = true
    · exact hnew i j hf hmid
    · rcases specCell_setCell_rev _ _ _ _ _ ht with hb | ⟨hieq, hjeq⟩
      · exact absurd hb hmid
      · rw [Int.toNat_of_nonneg hrow.1] at hieq
        rw [Int.toNat_of_nonneg hcol.1] at hjeq
        omega

/-- Witness for `splatter_chebyshev_bound` at a concrete in-bounds
splatter. -/
theorem splatter_chebyshev_bound_witness :
    ((0 : Int) ≤ centerSplatterInput.Radius
      ∧ (0 ≤ centerSplatterInput.Row
          ∧ centerSplatterInput.Row < (centerSplatterInput.Board.length : Int))
      ∧ (0 ≤ centerSplatterInput.Col
          ∧ centerSplatterInput.Col <
              ((centerSplatterInput.Board.getD centerSplatterInput.Row.toNat []).length : Int)))
    ∧ (∃ b' rands',
        V3.Am.Splatter centerSplatterInput [2, 2] = .ok (b', rands')
        ∧ specCell b' centerSplatterInput.Row centerSplatterInput.Col = true
        ∧ ∀ i j : Int, specCell centerSplatterInput.Board i j = false →
            specCell b' i j = true →
            centerSplatterInput.Row - centerSplatterInput.Radius ≤ i
              ∧ i ≤ centerSplatterInput.Row + centerSplatterInput.Radius
              ∧ centerSplatterInput.Col - centerSplatterInput.Radius ≤ j
              ∧ j ≤ centerSplatterInput.Col + centerSplatterInput.Radius) :=
  ⟨⟨by decide, ⟨by decide, by decide⟩, ⟨by decide, by decide⟩⟩,
   splatter_chebyshev_bound centerSplatterInput [2, 2] (by decide)
     ⟨by decide, by decide⟩ ⟨by decide, by decide⟩⟩

/- ------------------------------------------------------------------ -/
/- The radius-0 splatter (C6).                                         -/
/- ------------------------------------------------------------------ -/

/-- A `filterMap` over one element keeps at most one element. -/
lemma filterMap_singleton_length {α β : Type} (g : α → Option β) (a : α) :
    (List.filterMap g [a]).length ≤ 1 := by
  simp only [List.filterMap]
  cases g a <;> simp

/-- With radius 0 the candidate set of `Am.Splatter` has at most one
element (the origin, when it is in bounds). -/
lemma splatterCandidates_radius_zero_len (b : Board) (row col : Int) :
    (splatterCandidates b row col 0).length ≤ 1 := by
  unfold splatterCandidates
  have h1 : intRange (-(0 : Int)) 0 = [0] := rfl
  rw [h1]
  simp only [List.flatMap_cons, List.flatMap_nil, List.append_nil]
  exact filterMap_singleton_length _ 0

/-- C6: with radius 0 `Am.Splatter` never returns a board: on an empty
board the `board[0]` read fails, and otherwise the candidate set has at
most one element, so `numToFill := rand.Intn(len(candidates)/2) + 1`
evaluates `rand.Intn(0)`, which panics — for every input board, origin and
random stream. -/
theorem splatter_radius_zero_always_panics (input : SplatterInput) (rands : List Nat)
    (h : input.Radius = 0) :
    ∃ msg, Am.Splatter input rands = .error msg := by
  obtain ⟨b, row, col, rad⟩ := input
  simp only at h
  subst h
  by_cases hrows : b.length = 0
  · refine ⟨"index out of range", ?_⟩
    simp only [Am.Splatter]
    rw [if_pos hrows]
  · have hlen := splatterCandidates_radius_zero_len b row col
    have hsh : shuffle (splatterCandidates b row col 0) rands
        = (splatterCandidates b row col 0, rands) := by
      unfold shuffle
      rw [show (splatterCandidates b row col 0).length - 1 = 0 from by omega]
      rfl
    have hdiv : (((splatterCandidates b row col 0).length : Int)) / 2 = 0 := by
      rcases Nat.le_one_iff_eq_zero_or_eq_one.mp hlen with h0 | h0 <;> rw [h0] <;> rfl
    refine ⟨"invalid argument to Intn", ?_⟩
    simp only [Am.Splatter]
    rw [if_neg hrows, hsh]
    simp only []
    rw [hdiv]
    rfl

/-- Witness for `splatter_radius_zero_always_panics` at a 1x1 board with
its only cell as origin. -/
theorem splatter_radius_zero_always_panics_witness :
    (SplatterInput.mk [[false]] 0 0 0).Radius = 0
    ∧ ∃ msg, Am.Splatter (SplatterInput.mk [[false]] 0 0 0) [] = .error msg :=
  ⟨rfl, splatter_radius_zero_always_panics (SplatterInput.mk [[false]] 0 0 0) [] rfl⟩

end TemporalGol
